import Mathlib

/-!
Verification of the MessageCollector subsystem (src/unnamed/part_001,
`class MessageCollector extends EventEmitter`) and its construction path
`Chat.createMessageCollector` (src/structures/Chat.js).

The embedding is a shallow one: the collector instance is a Lean structure,
each JavaScript method body is translated to a pure state-transforming
function, and the event-loop nondeterminism (message delivery, async filter
suspension and resumption, timer expiry, explicit stop calls) is exposed as
a labelled step function over the collector state.  Signals emitted through
the EventEmitter (`collect`, `end`, `error`) are returned as an event list.
Virtual wall-clock time is threaded as a natural number; `setTimeout(f, d)`
at time `t` is modelled as an armed deadline `t + d`, and the timer callback
may fire as a step only when the current time has reached the deadline and
the timer has not been cleared.
-/

namespace MC

/-- A message as the collector consumes it: `_handleMessage` reads only
`message.chatId` (compared against `this.chat.id`) and `message.id`
(used as the key of `this.collected.set(message.id, message)`); the
caller-supplied filter may inspect anything, abstracted here by `content`. -/
structure Message where
  id : Nat
  chatId : Nat
  content : String
deriving DecidableEq, Repr

/-- Outcome of one evaluation of the caller-supplied filter on a message:
the eventual value of `await this.filter(message)` — `pass` (truthy),
`fail` (falsy), or `err` (the filter threw or its promise rejected). -/
inductive FilterOutcome
  | pass
  | fail
  | err
deriving DecidableEq, Repr

/-- The JavaScript errors the handler can surface through `emit('error', e)`:
an exception from the caller-supplied filter, or the TypeError raised by
`this.collected.set(...)` / accessor calls when `this.collected` is `null`. -/
inductive JsErr
  | filterError
  | typeError
deriving DecidableEq, Repr

/-- A signal emitted on the collector: `emit('collect', message)`,
`emit('end', this.collected, reason)` (the payload is the collected mapping
at the moment of the stop, `none` when still `null`), or `emit('error', e)`. -/
inductive Event
  | collect (m : Message)
  | ended (collected : Option (List (Nat × Message))) (reason : String)
  | error (e : JsErr)
deriving DecidableEq, Repr

/-- The configuration fields assigned once in the `MessageCollector`
constructor and never reassigned afterwards: `this.chat` (only its `id` is
read), `this.filter`, `this.max`, `this.time`, `this.idle`, `this.dispose`. -/
structure Config where
  chatId : Nat
  filter : Message → FilterOutcome
  max : Option Nat
  time : Option Nat
  idle : Option Nat
  dispose : Bool

/-- The mutable state of a `MessageCollector` instance.

`collected` is `this.collected`: `none` is the JavaScript `null` assigned in
the constructor (`this.collected = null; // initialized in async init()`),
`some l` is a Collection holding the insertion-ordered entries `l`.
`ended` is `this.ended`.  `listening` records whether `_handleMessage` is
still subscribed to the client's `messageCreate` stream (true from the
constructor's `client.on(...)` until `stop`'s `removeListener`).
`timeDeadline` / `idleDeadline` model `this._timeouts.time` /
`this._timeouts.idle`: `some d` is an armed timer due at absolute time `d`,
`none` a cleared or never-armed one.  `pending` holds messages whose handler
invocation has passed the `ended` and chat-id guards and is currently
suspended inside `await this.filter(message)`. -/
structure MessageCollector where
  cfg : Config
  collected : Option (List (Nat × Message))
  ended : Bool
  listening : Bool
  timeDeadline : Option Nat
  idleDeadline : Option Nat
  pending : List Message

/-- The raw options bag passed to the constructor; every recognized key may
be absent. -/
structure COptions where
  filter : Option (Message → FilterOutcome)
  max : Option Nat
  time : Option Nat
  idle : Option Nat
  dispose : Option Bool

/-- JavaScript `x || null` for a numeric option: an absent option and the
falsy value `0` both normalize to `null`. -/
def jsOrNone : Option Nat → Option Nat
  | some 0 => none
  | o => o

/-- JavaScript `options.dispose !== false` (default true). -/
def disposeOf : Option Bool → Bool
  | some false => false
  | _ => true

/-- The `MessageCollector` constructor at virtual time `t0`:
`this.filter = options.filter || (() => true)`;
`this.max = options.max || null` and likewise `time`, `idle`;
`this.dispose = options.dispose !== false`;
`this.collected = null`; `this.ended = false`;
`this.client.on('messageCreate', this._handleMessage)`;
`if (this.time) setTimeout(() => this.stop('time'), this.time)`;
`if (this.idle) this._resetIdleTimeout()`. -/
def newMessageCollector (chatId : Nat) (o : COptions) (t0 : Nat) : MessageCollector :=
  { cfg :=
      { chatId := chatId
        filter := o.filter.getD (fun _ => FilterOutcome.pass)
        max := jsOrNone o.max
        time := jsOrNone o.time
        idle := jsOrNone o.idle
        dispose := disposeOf o.dispose }
    collected := none
    ended := false
    listening := true
    timeDeadline := (jsOrNone o.time).map (fun T => t0 + T)
    idleDeadline := (jsOrNone o.idle).map (fun I => t0 + I)
    pending := [] }

/-- `Chat.createMessageCollector(options)` (src/structures/Chat.js):
`return new MessageCollector(this, options);` — it returns the freshly
constructed collector and never calls the collector's async `init()`. -/
def createMessageCollector (chatId : Nat) (o : COptions) (t0 : Nat) : MessageCollector :=
  newMessageCollector chatId o t0

/-- `async init()`: `this.collected = new Collection();`. -/
def MessageCollector.init (c : MessageCollector) : MessageCollector :=
  { c with collected := some [] }

/-- Modelled from the spec: `Collection.js` is imported by the collector and
by `Chat.js` but is not among the source files, so its `set` is taken from
the spec's data model — an "ordered append-only mapping of
collected-message-id → Message" where "re-insertion of the same id
overwrites value but not order". -/
def collectionSet (l : List (Nat × Message)) (k : Nat) (v : Message) :
    List (Nat × Message) :=
  if l.any (fun p => p.1 == k) then
    l.map (fun p => if p.1 == k then (k, v) else p)
  else
    l ++ [(k, v)]

/-- `stop(reason = 'user')`: if `this.ended` return; set `ended = true`;
`clearTimeout` every entry of `this._timeouts`; remove the `messageCreate`
listener; `emit('end', this.collected, reason)`.  (`removeAllListeners` when
`dispose` is set detaches the collector's own signal subscribers; it touches
no field modelled here.) -/
def MessageCollector.stop (c : MessageCollector) (reason : String) :
    MessageCollector × List Event :=
  if c.ended then (c, [])
  else
    ({ c with
        ended := true
        timeDeadline := none
        idleDeadline := none
        listening := false },
     [Event.ended c.collected reason])

/-- The body of `_handleMessage` from the point where
`await this.filter(message)` has produced its outcome: the `catch` turns a
filter exception into `emit('error', e)`; a falsy result returns; otherwise
`this.collected.set(message.id, message)` (a TypeError when `collected` is
`null`, caught by the same `catch`), `emit('collect', message)`,
`if (this.idle) this._resetIdleTimeout()`, and
`if (this.max && this.collected.size >= this.max) this.stop('limit')`.
Note: `this.ended` is NOT re-read here — the only `ended` check in the
handler is the one at its top, before the `await`. -/
def MessageCollector.handleResume (c : MessageCollector) (m : Message) (now : Nat) :
    MessageCollector × List Event :=
  match c.cfg.filter m with
  | FilterOutcome.err => (c, [Event.error JsErr.filterError])
  | FilterOutcome.fail => (c, [])
  | FilterOutcome.pass =>
    match c.collected with
    | none => (c, [Event.error JsErr.typeError])
    | some l =>
      let l2 := collectionSet l m.id m
      let idleD : Option Nat :=
        match c.cfg.idle with
        | some I => some (now + I)
        | none => c.idleDeadline
      let c2 : MessageCollector :=
        { c with collected := some l2, idleDeadline := idleD }
      let hitMax : Bool :=
        match c.cfg.max with
        | some n => decide (n ≤ l2.length)
        | none => false
      if hitMax then
        let p := c2.stop "limit"
        (p.1, Event.collect m :: p.2)
      else
        (c2, [Event.collect m])

/-- The synchronous prefix of `_handleMessage`: the handler only runs while
the `messageCreate` subscription is in place; `if (this.ended) return;`,
`if (message.chatId !== this.chat.id) return;`; then the evaluation of
`this.filter(message)` begins and the handler suspends at the `await`. -/
def MessageCollector.handleSuspend (c : MessageCollector) (m : Message) :
    MessageCollector :=
  if !c.listening then c
  else if c.ended then c
  else if m.chatId ≠ c.cfg.chatId then c
  else { c with pending := c.pending ++ [m] }

/-- A whole `_handleMessage` invocation in which the filter outcome is
available without interleaving: the guards of `handleSuspend` followed
immediately by `handleResume`. -/
def MessageCollector.deliver (c : MessageCollector) (m : Message) (now : Nat) :
    MessageCollector × List Event :=
  if !c.listening then (c, [])
  else if c.ended then (c, [])
  else if m.chatId ≠ c.cfg.chatId then (c, [])
  else c.handleResume m now

/-- Resumption of a previously suspended handler invocation: the `await`
on the filter settles for a message in `pending` and the rest of the
handler body runs, with no re-check of `ended` or of the chat id. -/
def MessageCollector.resume (c : MessageCollector) (m : Message) (now : Nat) :
    MessageCollector × List Event :=
  if m ∈ c.pending then
    MessageCollector.handleResume { c with pending := c.pending.erase m } m now
  else (c, [])

/-- Expiry of the `time` timer armed in the constructor: enabled once the
current time has reached the armed deadline (and the timer was not cleared);
the callback is `() => this.stop('time')`. -/
def MessageCollector.fireTime (c : MessageCollector) (now : Nat) :
    MessageCollector × List Event :=
  match c.timeDeadline with
  | some d => if d ≤ now then c.stop "time" else (c, [])
  | none => (c, [])

/-- Expiry of the idle timer: the callback armed by `_resetIdleTimeout` is
`() => this.stop('idle')`. -/
def MessageCollector.fireIdle (c : MessageCollector) (now : Nat) :
    MessageCollector × List Event :=
  match c.idleDeadline with
  | some d => if d ≤ now then c.stop "idle" else (c, [])
  | none => (c, [])

/-- The actions the environment (event loop, timers, caller) can take on a
collector: deliver a `messageCreate` event and run the handler to completion
synchronously; run the handler up to its `await` and suspend; settle a
suspended filter evaluation; let a timer fire; call `stop` explicitly. -/
inductive Label
  | deliverMsg (m : Message)
  | suspendAt (m : Message)
  | resumeAt (m : Message)
  | fireTimeL
  | fireIdleL
  | stopL (reason : String)

/-- One labelled step of the collector at virtual time `now`. -/
def step (c : MessageCollector) (l : Label) (now : Nat) :
    MessageCollector × List Event :=
  match l with
  | Label.deliverMsg m => c.deliver m now
  | Label.suspendAt m => (c.handleSuspend m, [])
  | Label.resumeAt m => c.resume m now
  | Label.fireTimeL => c.fireTime now
  | Label.fireIdleL => c.fireIdle now
  | Label.stopL r => c.stop r

/-- A run: a sequence of timestamped labels, executed in order; the emitted
events are concatenated in emission order. -/
def runSteps (c : MessageCollector) : List (Nat × Label) → MessageCollector × List Event
  | [] => (c, [])
  | (t, l) :: rest =>
    let p := step c l t
    let q := runSteps p.1 rest
    (q.1, p.2 ++ q.2)

/-- Message deliveries as run labels. -/
def deliveries (ms : List (Nat × Message)) : List (Nat × Label) :=
  ms.map (fun tm => (tm.1, Label.deliverMsg tm.2))

/-- A message the collector accepts: right chat and a passing filter. -/
def matchesB (c : MessageCollector) (m : Message) : Bool :=
  (m.chatId == c.cfg.chatId) && decide (c.cfg.filter m = FilterOutcome.pass)

/-- The accepted messages of a delivery sequence, in delivery order. -/
def matchingMsgs (c : MessageCollector) (ms : List (Nat × Message)) : List Message :=
  (ms.map Prod.snd).filter (matchesB c)

/-- `first()`: `return this.collected.first();` — the outer `none` is the
TypeError raised when `this.collected` is `null`; the value follows the
spec's data model for the absent `Collection.js` (first value in insertion
order, `undefined` on an empty collection). -/
def MessageCollector.first (c : MessageCollector) : Option (Option Message) :=
  c.collected.map (fun l => l.head?.map Prod.snd)

/-- `last()`: `return this.collected.last();`. -/
def MessageCollector.last (c : MessageCollector) : Option (Option Message) :=
  c.collected.map (fun l => l.getLast?.map Prod.snd)

/-- `random()`: `return this.collected.random();` — the choice of element is
abstracted by the index argument `k`; when `this.collected` is `null` the
call throws regardless (outer `none`). -/
def MessageCollector.random (c : MessageCollector) (k : Nat) : Option (Option Message) :=
  c.collected.map (fun l => (l.get? (k % l.length)).map Prod.snd)

/-- `find(fn)`: `return this.collected.find(fn);`. -/
def MessageCollector.find (c : MessageCollector) (p : Message → Bool) :
    Option (Option Message) :=
  c.collected.map (fun l => (l.find? (fun q => p q.2)).map Prod.snd)

/-- `map(fn)`: `return this.collected.map(fn);`. -/
def MessageCollector.mapMsgs (c : MessageCollector) (f : Message → Nat) :
    Option (List Nat) :=
  c.collected.map (fun l => l.map (fun q => f q.2))

/-- `array()`: `return this.collected.array();`. -/
def MessageCollector.array (c : MessageCollector) : Option (List Message) :=
  c.collected.map (fun l => l.map Prod.snd)

/-- The class-body method `filter(fn)`: `return this.collected.filter(fn);`
as it reads on the prototype.  (Reachability of this method through a
`MessageCollector` instance is a separate question settled below: the
constructor assigns the own property `this.filter`.) -/
def MessageCollector.filterProto (c : MessageCollector) (p : Message → Bool) :
    Option (List (Nat × Message)) :=
  c.collected.map (fun l => l.filter (fun q => p q.2))

/-- The own (instance) properties assigned by the `MessageCollector`
constructor, in source order: `this.client`, `this.chat`, `this.filter`,
`this.max`, `this.time`, `this.idle`, `this.dispose`, `this.collected`,
`this.ended`, `this._timeouts`, and the bound `this._handleMessage`. -/
def ownInstanceProps : List String :=
  ["client", "chat", "filter", "max", "time", "idle", "dispose",
   "collected", "ended", "_timeouts", "_handleMessage"]

/-- The methods of the `MessageCollector` class body (its prototype). -/
def protoMethods : List String :=
  ["_handleMessage", "_resetIdleTimeout", "stop", "init", "awaitMessage",
   "first", "last", "random", "find", "filter", "map", "array", "toJSON"]

/-- JavaScript member lookup on a `MessageCollector` instance: an own
property assigned in the constructor shadows a prototype method of the same
name, so the lookup reaches the prototype method only when no own property
carries that name. -/
def resolvesToProto (name : String) : Bool :=
  !(ownInstanceProps.contains name) && protoMethods.contains name

/-- The signals an `awaitMessage` promise can observe on its backing
collector after the moment of the call: `collect` carries the collected
message; `endSig` is the `end` signal (its payload is irrelevant to
`awaitMessage`). -/
inductive CEv
  | collect (m : Message)
  | endSig
deriving DecidableEq, Repr

/-- How an `awaitMessage(options)` promise settles. -/
inductive AwaitResult
  | resolved (m : Message)
  | rejectedTimeout
  | rejectedEnded
  | pending
deriving DecidableEq, Repr

/-- `awaitMessage(options)` (lines 168–195): `onCollect` resolves with the
first `collect`-signal message satisfying the one-off filter; `onEnd`
rejects with `Error('Collector ended')`; when neither happens over the
signals the collector ever emits after the call, the optional own timeout
rejects with `Error('Time limit exceeded')` if it was set, and otherwise the
promise never settles.  `evs` is the (finite) sequence of signals the
backing collector emits after the call, i.e. before the own timeout (when
set) would fire. -/
def awaitOutcome (flt : Message → Bool) (hasTimeout : Bool) :
    List CEv → AwaitResult
  | [] => if hasTimeout then AwaitResult.rejectedTimeout else AwaitResult.pending
  | CEv.collect m :: rest =>
    if flt m then AwaitResult.resolved m else awaitOutcome flt hasTimeout rest
  | CEv.endSig :: _ => AwaitResult.rejectedEnded

/-- The signals of an emitted-event list as `awaitMessage`'s listeners see
them (`error` signals have no listener there). -/
def toCEvs (evs : List Event) : List CEv :=
  evs.filterMap (fun e =>
    match e with
    | Event.collect m => some (CEv.collect m)
    | Event.ended _ _ => some CEv.endSig
    | Event.error _ => none)


/-- A `MessageCollector` constructed at `t0` whose `init()` has been
awaited, so that `this.collected` holds an empty Collection. -/
def initCollector (chatId : Nat) (o : COptions) (t0 : Nat) : MessageCollector :=
  (newMessageCollector chatId o t0).init

/-- The idle deadline the handler leaves behind after a successful collect at
time `t`: re-armed to `t + idle` when an idle bound is configured, untouched
otherwise. -/
def idleAfter (c : MessageCollector) (t : Nat) : Option Nat :=
  match c.cfg.idle with
  | some I => some (t + I)
  | none => c.idleDeadline

/-- Every entry of the collected mapping, and every message suspended in a
filter evaluation, belongs to the collector's target chat. -/
def chatInv (c : MessageCollector) : Prop :=
  (∀ p ∈ c.collected.getD [], p.2.chatId = c.cfg.chatId) ∧
  (∀ m ∈ c.pending, m.chatId = c.cfg.chatId)

/-- Fixture: the spec scenario options — `max = 2`, `time = 5000`. -/
def wOptsMax2 : COptions :=
  { filter := none, max := some 2, time := some 5000, idle := none, dispose := none }

/-- Fixture: an options bag with every recognized key absent. -/
def wOptsPlain : COptions :=
  { filter := none, max := none, time := none, idle := none, dispose := none }

/-- Fixture: an accept-everything filter together with `idle = 100`. -/
def wOptsIdle : COptions :=
  { filter := some (fun _ => FilterOutcome.pass), max := none, time := none,
    idle := some 100, dispose := none }

/-- Fixture: a filter that throws on every message. -/
def wOptsErr : COptions :=
  { filter := some (fun _ => FilterOutcome.err), max := none, time := none,
    idle := none, dispose := none }

/-- Fixture: `time = 5000`, nothing else. -/
def wOptsTime : COptions :=
  { filter := none, max := none, time := some 5000, idle := none, dispose := none }

/-- Fixture messages: three in chat 1, one in chat 2. -/
def wMsg1 : Message := { id := 11, chatId := 1, content := "a" }

def wMsg2 : Message := { id := 12, chatId := 1, content := "b" }

def wMsg3 : Message := { id := 13, chatId := 1, content := "c" }

def wMsgX : Message := { id := 14, chatId := 2, content := "x" }

def wMsg5 : Message := { id := 5, chatId := 1, content := "hi" }

/-- Fixture: an initialized collector in chat 1 with no bounds. -/
def wLive : MessageCollector := initCollector 1 wOptsPlain 0

/-- Fixture: the same collector after `stop('manual')`. -/
def wEnded : MessageCollector := (wLive.stop "manual").1

/-- Fixture: an initialized collector with the accept-all filter and
`idle = 100`, constructed at time 0. -/
def wIdleC : MessageCollector := initCollector 1 wOptsIdle 0

/-- Fixture: an initialized collector whose filter always throws. -/
def wErrC : MessageCollector := initCollector 1 wOptsErr 0

/-- Fixture: the spec-scenario collector (`max = 2`, `time = 5000`),
initialized, in chat 1 at time 0. -/
def wScenC : MessageCollector := initCollector 1 wOptsMax2 0

/-- Fixture: the scenario delivery sequence — three chat-1 messages and one
chat-2 message, all delivered synchronously at time 0. -/
def wScenMs : List (Nat × Message) :=
  [(0, wMsg1), (0, wMsg2), (0, wMsg3), (0, wMsgX)]

end MC


namespace MC

/-! ### Basic preservation lemmas -/

theorem stop_cfg (c : MessageCollector) (r : String) : (c.stop r).1.cfg = c.cfg := by
  unfold MessageCollector.stop
  split <;> rfl

theorem stop_collected (c : MessageCollector) (r : String) :
    (c.stop r).1.collected = c.collected := by
  unfold MessageCollector.stop
  split <;> rfl

theorem stop_pending (c : MessageCollector) (r : String) :
    (c.stop r).1.pending = c.pending := by
  unfold MessageCollector.stop
  split <;> rfl

theorem handleResume_cfg (c : MessageCollector) (m : Message) (t : Nat) :
    (c.handleResume m t).1.cfg = c.cfg := by
  unfold MessageCollector.handleResume
  cases hf : c.cfg.filter m <;> simp
  cases hc : c.collected <;> simp
  split
  · simp [stop_cfg]
  · rfl

theorem handleResume_pending (c : MessageCollector) (m : Message) (t : Nat) :
    (c.handleResume m t).1.pending = c.pending := by
  unfold MessageCollector.handleResume
  cases hf : c.cfg.filter m <;> simp
  cases hc : c.collected <;> simp
  split
  · simp [stop_pending]
  · rfl

theorem deliver_cfg (c : MessageCollector) (m : Message) (t : Nat) :
    (c.deliver m t).1.cfg = c.cfg := by
  unfold MessageCollector.deliver
  split
  · rfl
  split
  · rfl
  split
  · rfl
  · exact handleResume_cfg c m t

theorem handleSuspend_cfg (c : MessageCollector) (m : Message) :
    (c.handleSuspend m).cfg = c.cfg := by
  unfold MessageCollector.handleSuspend
  split
  · rfl
  split
  · rfl
  split <;> rfl

theorem resume_cfg (c : MessageCollector) (m : Message) (t : Nat) :
    (c.resume m t).1.cfg = c.cfg := by
  unfold MessageCollector.resume
  split
  · exact handleResume_cfg _ m t
  · rfl

theorem fireTime_cfg (c : MessageCollector) (t : Nat) :
    (c.fireTime t).1.cfg = c.cfg := by
  unfold MessageCollector.fireTime
  cases c.timeDeadline
  · rfl
  · simp only []
    split
    · exact stop_cfg c _
    · rfl

theorem fireIdle_cfg (c : MessageCollector) (t : Nat) :
    (c.fireIdle t).1.cfg = c.cfg := by
  unfold MessageCollector.fireIdle
  cases c.idleDeadline
  · rfl
  · simp only []
    split
    · exact stop_cfg c _
    · rfl

theorem step_cfg (c : MessageCollector) (l : Label) (t : Nat) :
    (step c l t).1.cfg = c.cfg := by
  cases l with
  | deliverMsg m => exact deliver_cfg c m t
  | suspendAt m =>
    show (c.handleSuspend m, ([] : List Event)).1.cfg = c.cfg
    exact handleSuspend_cfg c m
  | resumeAt m => exact resume_cfg c m t
  | fireTimeL => exact fireTime_cfg c t
  | fireIdleL => exact fireIdle_cfg c t
  | stopL r => exact stop_cfg c r

theorem deliver_ended_noop (c : MessageCollector) (m : Message) (t : Nat)
    (h : c.ended = true) : c.deliver m t = (c, []) := by
  unfold MessageCollector.deliver
  cases hl : c.listening <;> simp [h]

theorem stop_of_ended (c : MessageCollector) (r : String) (h : c.ended = true) :
    c.stop r = (c, []) := by
  unfold MessageCollector.stop
  simp [h]

/-- After `stop` has run (`ended` true) and with no handler invocation
suspended inside its filter `await`, every further step is a strict no-op:
no state change and no emitted signal. -/
theorem step_noop_of_ended (c : MessageCollector) (l : Label) (t : Nat)
    (h : c.ended = true) (hp : c.pending = []) : step c l t = (c, []) := by
  cases l with
  | deliverMsg m => exact deliver_ended_noop c m t h
  | suspendAt m =>
    show (c.handleSuspend m, ([] : List Event)) = (c, [])
    unfold MessageCollector.handleSuspend
    cases hl : c.listening <;> simp [h]
  | resumeAt m =>
    show c.resume m t = (c, [])
    unfold MessageCollector.resume
    simp [hp]
  | fireTimeL =>
    show c.fireTime t = (c, [])
    unfold MessageCollector.fireTime
    cases c.timeDeadline
    · rfl
    · simp only []
      split
      · exact stop_of_ended c _ h
      · rfl
  | fireIdleL =>
    show c.fireIdle t = (c, [])
    unfold MessageCollector.fireIdle
    cases c.idleDeadline
    · rfl
    · simp only []
      split
      · exact stop_of_ended c _ h
      · rfl
  | stopL r => exact stop_of_ended c r h

theorem runSteps_noop_of_ended (c : MessageCollector) (steps : List (Nat × Label))
    (h : c.ended = true) (hp : c.pending = []) : runSteps c steps = (c, []) := by
  induction steps with
  | nil => rfl
  | cons s rest ih =>
    obtain ⟨t, l⟩ := s
    unfold runSteps
    rw [step_noop_of_ended c l t h hp]
    simpa using ih

theorem runDeliveries_of_ended (c : MessageCollector) (ms : List (Nat × Message))
    (h : c.ended = true) : runSteps c (deliveries ms) = (c, []) := by
  induction ms with
  | nil => rfl
  | cons tm rest ih =>
    unfold deliveries runSteps
    simp only [List.map_cons]
    rw [show step c (Label.deliverMsg tm.2) tm.1 = c.deliver tm.2 tm.1 from rfl,
        deliver_ended_noop c tm.2 tm.1 h]
    simpa [deliveries] using ih

end MC

namespace MC

/-! ### Delivery of non-accepted messages, and append decomposition -/

theorem runSteps_append (c : MessageCollector) (a b : List (Nat × Label)) :
    runSteps c (a ++ b) =
      ((runSteps (runSteps c a).1 b).1,
       (runSteps c a).2 ++ (runSteps (runSteps c a).1 b).2) := by
  induction a generalizing c with
  | nil => simp [runSteps]
  | cons s rest ih =>
    obtain ⟨t, l⟩ := s
    simp only [List.cons_append, runSteps]
    rw [show List.append rest b = rest ++ b from rfl, ih]
    simp [List.append_assoc]

/-- A message for the wrong chat is ignored before the filter is reached:
the handler returns at the chat-id guard with no state change and no signal. -/
theorem deliver_wrong_chat (c : MessageCollector) (m : Message) (t : Nat)
    (hch : m.chatId ≠ c.cfg.chatId) : c.deliver m t = (c, []) := by
  unfold MessageCollector.deliver
  cases hl : c.listening <;> cases he : c.ended <;> simp [hch]

/-- A handler invocation whose message the collector does not accept (wrong
chat, falsy filter, or throwing filter) leaves the whole state unchanged. -/
theorem deliver_nomatch_state (c : MessageCollector) (m : Message) (t : Nat)
    (hm : matchesB c m = false) : (c.deliver m t).1 = c := by
  unfold MessageCollector.deliver
  cases hl : c.listening
  · simp
  cases he : c.ended
  · by_cases hch : m.chatId = c.cfg.chatId
    · have hfm : c.cfg.filter m ≠ FilterOutcome.pass := by
        intro hpass
        simp [matchesB, hch, hpass] at hm
      simp only [hch]
      unfold MessageCollector.handleResume
      cases hf : c.cfg.filter m <;> simp_all
    · simp [hch]
  · simp

theorem deliver_nomatch_no_end (c : MessageCollector) (m : Message) (t : Nat)
    (hm : matchesB c m = false) :
    ∀ e ∈ (c.deliver m t).2, ∃ j, e = Event.error j := by
  unfold MessageCollector.deliver
  cases hl : c.listening
  · simp
  cases he : c.ended
  · by_cases hch : m.chatId = c.cfg.chatId
    · have hfm : c.cfg.filter m ≠ FilterOutcome.pass := by
        intro hpass
        simp [matchesB, hch, hpass] at hm
      simp only [hch]
      unfold MessageCollector.handleResume
      cases hf : c.cfg.filter m <;> simp_all
    · simp [hch]
  · simp

/-- Over a run of deliveries none of which the collector accepts, the state
is exactly preserved. -/
theorem runSteps_nomatch_state (c : MessageCollector) (ms : List (Nat × Message))
    (hm : ∀ tm ∈ ms, matchesB c tm.2 = false) :
    (runSteps c (deliveries ms)).1 = c := by
  induction ms with
  | nil => rfl
  | cons tm rest ih =>
    unfold deliveries runSteps
    simp only [List.map_cons]
    have h1 : step c (Label.deliverMsg tm.2) tm.1 = c.deliver tm.2 tm.1 := rfl
    have h2 : (c.deliver tm.2 tm.1).1 = c :=
      deliver_nomatch_state c tm.2 tm.1 (hm tm (by simp))
    simp only [h1, h2]
    exact ih (fun q hq => hm q (by simp [hq]))

/-- `this.collected` is assigned only by `init()`: no handler invocation,
timer expiry or stop call turns a `null` collected mapping into a
Collection. -/
theorem step_collected_none (c : MessageCollector) (l : Label) (t : Nat)
    (h : c.collected = none) : (step c l t).1.collected = none := by
  cases l with
  | deliverMsg m =>
    show (c.deliver m t).1.collected = none
    unfold MessageCollector.deliver
    cases hl : c.listening
    · simpa
    cases he : c.ended
    · by_cases hch : m.chatId = c.cfg.chatId
      · simp only [hch]
        unfold MessageCollector.handleResume
        cases hf : c.cfg.filter m <;> simp_all
      · simpa [hch]
    · simpa
  | suspendAt m =>
    show (c.handleSuspend m).collected = none
    unfold MessageCollector.handleSuspend
    split
    · exact h
    split
    · exact h
    split
    · exact h
    · simpa
  | resumeAt m =>
    show (c.resume m t).1.collected = none
    unfold MessageCollector.resume
    split
    · unfold MessageCollector.handleResume
      cases hf : c.cfg.filter m <;> simp_all
    · simpa
  | fireTimeL =>
    show (c.fireTime t).1.collected = none
    unfold MessageCollector.fireTime
    cases c.timeDeadline
    · simpa
    · simp only []
      split
      · rw [stop_collected]
        exact h
      · simpa
  | fireIdleL =>
    show (c.fireIdle t).1.collected = none
    unfold MessageCollector.fireIdle
    cases c.idleDeadline
    · simpa
    · simp only []
      split
      · rw [stop_collected]
        exact h
      · simpa
  | stopL r =>
    show (c.stop r).1.collected = none
    rw [stop_collected]
    exact h

theorem runSteps_collected_none (c : MessageCollector) (steps : List (Nat × Label))
    (h : c.collected = none) : (runSteps c steps).1.collected = none := by
  induction steps generalizing c with
  | nil => exact h
  | cons s rest ih =>
    obtain ⟨t, l⟩ := s
    unfold runSteps
    exact ih _ (step_collected_none c l t h)

/-- Inserting a key absent from an insertion-ordered collection appends the
new entry. -/
theorem collectionSet_of_not_mem (l : List (Nat × Message)) (k : Nat) (v : Message)
    (h : k ∉ l.map Prod.fst) : collectionSet l k v = l ++ [(k, v)] := by
  unfold collectionSet
  have : l.any (fun p => p.1 == k) = false := by
    rw [List.any_eq_false]
    intro p hp
    simp only [beq_iff_eq]
    intro hk
    exact h (by simpa [hk] using List.mem_map_of_mem Prod.fst hp)
  simp [this]

end MC

namespace MC

/-! ### Accepted deliveries -/

/-- A handler invocation that accepts a fresh message and does not reach the
`max` bound: the entry is appended, `collect` is emitted, and the idle timer
(when configured) is re-armed. -/
theorem deliver_match_nohit (c : MessageCollector) (m : Message) (t : Nat)
    (l : List (Nat × Message))
    (he : c.ended = false) (hl : c.listening = true)
    (hch : m.chatId = c.cfg.chatId) (hf : c.cfg.filter m = FilterOutcome.pass)
    (hc : c.collected = some l) (hfresh : m.id ∉ l.map Prod.fst)
    (hmax : ∀ N, c.cfg.max = some N → l.length + 1 < N) :
    c.deliver m t =
      ({ c with collected := some (l ++ [(m.id, m)]), idleDeadline := idleAfter c t },
       [Event.collect m]) := by
  unfold MessageCollector.deliver
  simp only [hl, he, hch]
  unfold MessageCollector.handleResume
  simp only [hf, hc, collectionSet_of_not_mem l m.id m hfresh]
  have hhit : (match c.cfg.max with
      | some n => decide (n ≤ l.length + 1)
      | none => false) = false := by
    cases hN : c.cfg.max with
    | none => rfl
    | some n =>
      have := hmax n hN
      simp only [decide_eq_false_iff_not]
      omega
  simp [hhit, idleAfter, he, hl]

/-- A handler invocation that accepts a fresh message and thereby reaches
the `max` bound: the entry is appended, `collect` is emitted, and
`stop('limit')` runs, emitting `end` with the full mapping. -/
theorem deliver_match_hit (c : MessageCollector) (m : Message) (t : Nat)
    (l : List (Nat × Message)) (N : Nat)
    (he : c.ended = false) (hl : c.listening = true)
    (hch : m.chatId = c.cfg.chatId) (hf : c.cfg.filter m = FilterOutcome.pass)
    (hc : c.collected = some l) (hfresh : m.id ∉ l.map Prod.fst)
    (hN : c.cfg.max = some N) (hhit : N ≤ l.length + 1) :
    c.deliver m t =
      ({ c with
          collected := some (l ++ [(m.id, m)])
          ended := true
          listening := false
          timeDeadline := none
          idleDeadline := none },
       [Event.collect m,
        Event.ended (some (l ++ [(m.id, m)])) "limit"]) := by
  unfold MessageCollector.deliver
  simp only [hl, he, hch]
  unfold MessageCollector.handleResume
  simp only [hf, hc, collectionSet_of_not_mem l m.id m hfresh]
  have hhit2 : (match c.cfg.max with
      | some n => decide (n ≤ (l ++ [(m.id, m)]).length)
      | none => false) = true := by
    simp only [hN, List.length_append, List.length_singleton, decide_eq_true_eq]
    omega
  simp only [hhit2, if_true]
  unfold MessageCollector.stop
  simp [he]

theorem matchesB_congr (c c2 : MessageCollector) (h : c2.cfg = c.cfg) :
    matchesB c2 = matchesB c := by
  funext m
  simp [matchesB, h]

theorem matchingMsgs_congr (c c2 : MessageCollector) (h : c2.cfg = c.cfg)
    (ms : List (Nat × Message)) : matchingMsgs c2 ms = matchingMsgs c ms := by
  simp [matchingMsgs, matchesB_congr c c2 h]

/-- Core of the `max`-bound property: from any live collector whose mapping
holds fewer than `max` entries, a delivery sequence carrying enough accepted
messages with fresh, pairwise-distinct ids drives the collector to exactly
`max` entries, ends it, and emits `end` with reason `"limit"` carrying the
final mapping. -/
theorem limit_run (N : Nat) (ms : List (Nat × Message)) :
    ∀ (c : MessageCollector) (l : List (Nat × Message)),
    c.collected = some l → c.ended = false → c.listening = true →
    c.cfg.max = some N → l.length < N →
    (l.map Prod.fst ++ (matchingMsgs c ms).map Message.id).Nodup →
    N ≤ l.length + (matchingMsgs c ms).length →
    ∃ lf, (runSteps c (deliveries ms)).1.collected = some lf ∧
          lf.length = N ∧
          (runSteps c (deliveries ms)).1.ended = true ∧
          Event.ended (some lf) "limit" ∈ (runSteps c (deliveries ms)).2 := by
  induction ms with
  | nil =>
    intro c l hc he hl hN hlen _ hcount
    simp [matchingMsgs] at hcount
    omega
  | cons tm rest ih =>
    intro c l hc he hl hN hlen hnd hcount
    obtain ⟨t, m⟩ := tm
    have hrun : runSteps c (deliveries ((t, m) :: rest)) =
        (((runSteps (c.deliver m t).1 (deliveries rest)).1 : MessageCollector),
         (c.deliver m t).2 ++ (runSteps (c.deliver m t).1 (deliveries rest)).2) := by
      rfl
    by_cases hmB : matchesB c m = true
    · have hch : m.chatId = c.cfg.chatId := by
        have := hmB
        simp [matchesB] at this
        exact this.1
      have hf : c.cfg.filter m = FilterOutcome.pass := by
        have := hmB
        simp [matchesB] at this
        exact this.2
      have hmm : matchingMsgs c ((t, m) :: rest) = m :: matchingMsgs c rest := by
        simp [matchingMsgs, hmB]
      rw [hmm] at hnd hcount
      simp only [List.map_cons] at hnd
      have hnd2 : ((l.map Prod.fst ++ [m.id]) ++
          (matchingMsgs c rest).map Message.id).Nodup := by
        rw [List.append_assoc, List.singleton_append]
        exact hnd
      have hfresh : m.id ∉ l.map Prod.fst := by
        rw [List.append_cons] at hnd
        rcases List.nodup_append.mp hnd with ⟨hleft, _, hdisj⟩
        intro hmem
        rcases List.nodup_append.mp hleft with ⟨_, _, hdisj2⟩
        exact hdisj2 hmem (by simp)
      by_cases hnear : N ≤ l.length + 1
      · -- this accepted message reaches the bound
        rw [hrun, deliver_match_hit c m t l N he hl hch hf hc hfresh hN hnear]
        rw [runDeliveries_of_ended _ rest (by rfl)]
        refine ⟨l ++ [(m.id, m)], by simp, by simp; omega, by simp, by simp⟩
      · -- strictly below the bound: recurse on the grown state
        rw [hrun, deliver_match_nohit c m t l he hl hch hf hc hfresh
          (fun N2 hN2 => by rw [hN] at hN2; cases hN2; omega)]
        set c2 : MessageCollector :=
          { c with collected := some (l ++ [(m.id, m)]), idleDeadline := idleAfter c t }
          with hc2
        have hcfg : c2.cfg = c.cfg := rfl
        have hrm : matchingMsgs c2 rest = matchingMsgs c rest :=
          matchingMsgs_congr c c2 hcfg rest
        obtain ⟨lf, h1, h2, h3, h4⟩ :=
          ih c2 (l ++ [(m.id, m)]) rfl (by simp [hc2, he]) (by simp [hc2, hl])
            (by simp [hc2, hN]) (by simp; omega)
            (by rw [hrm]; simpa using hnd2)
            (by rw [hrm]; simp at hcount ⊢; omega)
        refine ⟨lf, h1, h2, h3, List.mem_append_right _ h4⟩
    · have hmB2 : matchesB c m = false := by simpa using hmB
      have hmm : matchingMsgs c ((t, m) :: rest) = matchingMsgs c rest := by
        simp [matchingMsgs, hmB2]
      rw [hmm] at hnd hcount
      rw [hrun]
      have hst : (c.deliver m t).1 = c := deliver_nomatch_state c m t hmB2
      rw [hst]
      obtain ⟨lf, h1, h2, h3, h4⟩ := ih c l hc he hl hN hlen hnd hcount
      exact ⟨lf, h1, h2, h3, List.mem_append_right _ h4⟩

end MC

namespace MC

/-! ### Chat-scope invariant -/

theorem mem_collectionSet (l : List (Nat × Message)) (k : Nat) (v : Message)
    (p : Nat × Message) (hp : p ∈ collectionSet l k v) : p ∈ l ∨ p = (k, v) := by
  unfold collectionSet at hp
  split at hp
  · rcases List.mem_map.mp hp with ⟨q, hq, hqe⟩
    by_cases hk : q.1 == k
    · right
      rw [if_pos hk] at hqe
      exact hqe.symm
    · left
      rw [if_neg hk] at hqe
      exact hqe ▸ hq
  · rcases List.mem_append.mp hp with h | h
    · exact Or.inl h
    · right
      simpa using h

/-- The continuation of the handler can only keep existing entries or add
the entry for the message it was invoked on. -/
theorem handleResume_collected_mem (c : MessageCollector) (m : Message) (t : Nat)
    (p : Nat × Message)
    (hp : p ∈ (c.handleResume m t).1.collected.getD []) :
    p ∈ c.collected.getD [] ∨ p = (m.id, m) := by
  unfold MessageCollector.handleResume at hp
  cases hf : c.cfg.filter m <;> simp only [hf] at hp
  case fail => exact Or.inl hp
  case err => exact Or.inl hp
  case pass =>
    cases hc : c.collected <;> simp only [hc] at hp
    case none => exact Or.inl hp
    case some l =>
      have hset : ∀ q ∈ collectionSet l m.id m, q ∈ l ∨ q = (m.id, m) :=
        fun q hq => mem_collectionSet l m.id m q hq
      split at hp
      · dsimp only [] at hp
        rw [stop_collected] at hp
        dsimp only [] at hp
        simp only [Option.getD_some] at hp
        refine (hset p hp).imp (fun h => ?_) id
        simpa using h
      · dsimp only [] at hp
        simp only [Option.getD_some] at hp
        refine (hset p hp).imp (fun h => ?_) id
        simpa using h

theorem handleResume_chatInv (c : MessageCollector) (m : Message) (t : Nat)
    (hm : m.chatId = c.cfg.chatId) (hinv : chatInv c) :
    chatInv (c.handleResume m t).1 := by
  constructor
  · intro p hp
    rw [handleResume_cfg]
    rcases handleResume_collected_mem c m t p hp with h | h
    · exact hinv.1 p h
    · rw [h]
      exact hm
  · intro m2 hm2
    rw [handleResume_cfg]
    rw [handleResume_pending] at hm2
    exact hinv.2 m2 hm2

theorem stop_chatInv (c : MessageCollector) (r : String) (hinv : chatInv c) :
    chatInv (c.stop r).1 := by
  constructor
  · intro p hp
    rw [stop_collected] at hp
    rw [stop_cfg]
    exact hinv.1 p hp
  · intro m hm
    rw [stop_pending] at hm
    rw [stop_cfg]
    exact hinv.2 m hm

theorem step_chatInv (c : MessageCollector) (l : Label) (t : Nat)
    (hinv : chatInv c) : chatInv (step c l t).1 := by
  cases l with
  | deliverMsg m =>
    show chatInv (c.deliver m t).1
    unfold MessageCollector.deliver
    split
    · exact hinv
    split
    · exact hinv
    split
    · exact hinv
    · rename_i hch
      exact handleResume_chatInv c m t (by omega) hinv
  | suspendAt m =>
    show chatInv (c.handleSuspend m)
    unfold MessageCollector.handleSuspend
    split
    · exact hinv
    split
    · exact hinv
    split
    · exact hinv
    · rename_i hch
      refine ⟨fun p hp => hinv.1 p (by simpa using hp), ?_⟩
      intro m2 hm2
      simp only [List.mem_append, List.mem_singleton] at hm2
      rcases hm2 with h | h
      · exact hinv.2 m2 (by simpa using h)
      · subst h
        show m2.chatId = c.cfg.chatId
        omega
  | resumeAt m =>
    show chatInv (c.resume m t).1
    unfold MessageCollector.resume
    split
    · rename_i hmem
      have hm : m.chatId = c.cfg.chatId := hinv.2 m hmem
      have hinv2 : chatInv { c with pending := c.pending.erase m } := by
        refine ⟨fun p hp => hinv.1 p (by simpa using hp), ?_⟩
        intro m2 hm2
        simp only [] at hm2
        exact hinv.2 m2 (List.mem_of_mem_erase hm2)
      exact handleResume_chatInv _ m t hm hinv2
    · exact hinv
  | fireTimeL =>
    show chatInv (c.fireTime t).1
    unfold MessageCollector.fireTime
    cases c.timeDeadline
    · exact hinv
    · simp only []
      split
      · exact stop_chatInv c _ hinv
      · exact hinv
  | fireIdleL =>
    show chatInv (c.fireIdle t).1
    unfold MessageCollector.fireIdle
    cases c.idleDeadline
    · exact hinv
    · simp only []
      split
      · exact stop_chatInv c _ hinv
      · exact hinv
  | stopL r => exact stop_chatInv c r hinv

theorem runSteps_chatInv (c : MessageCollector) (steps : List (Nat × Label))
    (hinv : chatInv c) : chatInv (runSteps c steps).1 := by
  induction steps generalizing c with
  | nil => exact hinv
  | cons s rest ih =>
    obtain ⟨t, l⟩ := s
    exact ih _ (step_chatInv c l t hinv)

/-! ### Throwing filters and the uninitialized mapping -/

/-- A chat-matching message whose filter evaluation throws: the exception is
caught and surfaced as one `error` signal; nothing else changes. -/
theorem deliver_err (c : MessageCollector) (m : Message) (t : Nat)
    (he : c.ended = false) (hl : c.listening = true)
    (hch : m.chatId = c.cfg.chatId) (hf : c.cfg.filter m = FilterOutcome.err) :
    c.deliver m t = (c, [Event.error JsErr.filterError]) := by
  unfold MessageCollector.deliver
  simp only [hl, he, hch]
  unfold MessageCollector.handleResume
  simp [hf]

/-- A chat-matching, filter-passing message arriving while `this.collected`
is still `null`: `this.collected.set` throws a TypeError which the handler's
`catch` converts into one `error` signal; the state is unchanged. -/
theorem deliver_null (c : MessageCollector) (m : Message) (t : Nat)
    (he : c.ended = false) (hl : c.listening = true)
    (hch : m.chatId = c.cfg.chatId) (hf : c.cfg.filter m = FilterOutcome.pass)
    (hc : c.collected = none) :
    c.deliver m t = (c, [Event.error JsErr.typeError]) := by
  unfold MessageCollector.deliver
  simp only [hl, he, hch]
  unfold MessageCollector.handleResume
  simp [hf, hc]

/-- With a filter that throws on every message, an arbitrary delivery
sequence leaves the collector state untouched and produces exactly one
`error` signal per chat-matching message, in delivery order. -/
theorem run_allerr (c : MessageCollector) (ms : List (Nat × Message))
    (hferr : ∀ m, c.cfg.filter m = FilterOutcome.err)
    (he : c.ended = false) (hl : c.listening = true) :
    runSteps c (deliveries ms) =
      (c, (ms.filter (fun tm => tm.2.chatId == c.cfg.chatId)).map
            (fun _ => Event.error JsErr.filterError)) := by
  induction ms with
  | nil => rfl
  | cons tm rest ih =>
    obtain ⟨t, m⟩ := tm
    have hrun : runSteps c (deliveries ((t, m) :: rest)) =
        ((runSteps (c.deliver m t).1 (deliveries rest)).1,
         (c.deliver m t).2 ++ (runSteps (c.deliver m t).1 (deliveries rest)).2) := rfl
    by_cases hch : m.chatId = c.cfg.chatId
    · rw [hrun, deliver_err c m t he hl hch (hferr m)]
      simp only [ih]
      simp [hch]
    · rw [hrun, deliver_wrong_chat c m t hch]
      simp only [ih]
      simp [hch]

/-! ### Idle-timer lemmas -/

/-- A delivery the collector does not accept (wrong chat, falsy filter, or
throwing filter) leaves the idle deadline untouched: only a successful
collect resets the idle timer. -/
theorem deliver_nomatch_idle (c : MessageCollector) (m : Message) (t : Nat)
    (hm : matchesB c m = false) :
    (c.deliver m t).1.idleDeadline = c.idleDeadline := by
  rw [deliver_nomatch_state c m t hm]

end MC

namespace MC

/-! ### Timer expiry -/

/-- An armed `time` timer whose deadline has been reached stops the
collector with reason `"time"`, emitting `end` with the current mapping. -/
theorem fireTime_expire (c : MessageCollector) (now d : Nat)
    (hd : c.timeDeadline = some d) (hle : d ≤ now) (he : c.ended = false) :
    c.fireTime now =
      ({ c with
          ended := true
          timeDeadline := none
          idleDeadline := none
          listening := false },
       [Event.ended c.collected "time"]) := by
  unfold MessageCollector.fireTime
  simp only [hd, hle, if_true]
  unfold MessageCollector.stop
  simp [he]

/-- An armed idle timer whose deadline has been reached stops the collector
with reason `"idle"`. -/
theorem fireIdle_expire (c : MessageCollector) (now d : Nat)
    (hd : c.idleDeadline = some d) (hle : d ≤ now) (he : c.ended = false) :
    c.fireIdle now =
      ({ c with
          ended := true
          timeDeadline := none
          idleDeadline := none
          listening := false },
       [Event.ended c.collected "idle"]) := by
  unfold MessageCollector.fireIdle
  simp only [hd, hle, if_true]
  unfold MessageCollector.stop
  simp [he]

/-- A timer cannot fire before its deadline. -/
theorem fireTime_early (c : MessageCollector) (now d : Nat)
    (hd : c.timeDeadline = some d) (hlt : now < d) :
    c.fireTime now = (c, []) := by
  unfold MessageCollector.fireTime
  simp only [hd]
  rw [if_neg]
  omega

theorem fireIdle_early (c : MessageCollector) (now d : Nat)
    (hd : c.idleDeadline = some d) (hlt : now < d) :
    c.fireIdle now = (c, []) := by
  unfold MessageCollector.fireIdle
  simp only [hd]
  rw [if_neg]
  omega

/-! ### awaitMessage settlement -/

/-- The promise resolves with the first post-call `collect` signal whose
message passes the one-off filter, skipping earlier non-matching collects. -/
theorem awaitOutcome_resolves (flt : Message → Bool) (ht : Bool) :
    ∀ (pre : List CEv) (m : Message) (rest : List CEv),
    (∀ m2, CEv.collect m2 ∈ pre → flt m2 = false) →
    CEv.endSig ∉ pre → flt m = true →
    awaitOutcome flt ht (pre ++ CEv.collect m :: rest) = AwaitResult.resolved m := by
  intro pre
  induction pre with
  | nil =>
    intro m rest _ _ hm
    simp [awaitOutcome, hm]
  | cons e pre2 ih =>
    intro m rest hno hend hm
    cases e with
    | collect m2 =>
      have h2 : flt m2 = false := hno m2 (by simp)
      simp only [List.cons_append, awaitOutcome, h2]
      exact ih m rest (fun m3 h3 => hno m3 (by simp [h3])) (by simp at hend; simp [hend])
        hm
    | endSig =>
      exact absurd (by simp) hend

/-- The promise rejects with `Error('Collector ended')` when the collector
emits `end` before any matching `collect`. -/
theorem awaitOutcome_rejectsEnd (flt : Message → Bool) (ht : Bool) :
    ∀ (pre : List CEv) (rest : List CEv),
    (∀ m2, CEv.collect m2 ∈ pre → flt m2 = false) →
    CEv.endSig ∉ pre →
    awaitOutcome flt ht (pre ++ CEv.endSig :: rest) = AwaitResult.rejectedEnded := by
  intro pre
  induction pre with
  | nil =>
    intro rest _ _
    simp [awaitOutcome]
  | cons e pre2 ih =>
    intro rest hno hend
    cases e with
    | collect m2 =>
      have h2 : flt m2 = false := hno m2 (by simp)
      simp only [List.cons_append, awaitOutcome, h2]
      exact ih rest (fun m3 h3 => hno m3 (by simp [h3])) (by simp at hend; simp [hend])
    | endSig =>
      exact absurd (by simp) hend

/-- When the backing collector never again emits a matching `collect` or an
`end`, the promise settles only through its own optional timeout: it rejects
with `Error('Time limit exceeded')` when one was set and otherwise stays
pending forever. -/
theorem awaitOutcome_noSignal (flt : Message → Bool) (ht : Bool) :
    ∀ (evs : List CEv),
    (∀ m2, CEv.collect m2 ∈ evs → flt m2 = false) →
    CEv.endSig ∉ evs →
    awaitOutcome flt ht evs =
      (if ht then AwaitResult.rejectedTimeout else AwaitResult.pending) := by
  intro evs
  induction evs with
  | nil =>
    intro _ _
    simp [awaitOutcome]
  | cons e rest ih =>
    intro hno hend
    cases e with
    | collect m2 =>
      have h2 : flt m2 = false := hno m2 (by simp)
      simp only [awaitOutcome, h2]
      exact ih (fun m3 h3 => hno m3 (by simp [h3])) (by simp at hend; simp [hend])
    | endSig =>
      exact absurd (by simp) hend

end MC

namespace MC

/-! ### Remaining auxiliary lemmas -/

theorem runSteps_cfg (c : MessageCollector) (steps : List (Nat × Label)) :
    (runSteps c steps).1.cfg = c.cfg := by
  induction steps generalizing c with
  | nil => rfl
  | cons s rest ih =>
    obtain ⟨t, l⟩ := s
    unfold runSteps
    rw [ih, step_cfg]

theorem handleSuspend_wrong_chat (c : MessageCollector) (m : Message)
    (hch : m.chatId ≠ c.cfg.chatId) : c.handleSuspend m = c := by
  unfold MessageCollector.handleSuspend
  cases hl : c.listening <;> cases he : c.ended <;> simp [hch]

theorem handleSuspend_ended (c : MessageCollector) (m : Message)
    (h : c.ended = true) : c.handleSuspend m = c := by
  unfold MessageCollector.handleSuspend
  cases hl : c.listening <;> simp [h]

/-! ### Claims -/

/-- C4: for every collector built by the constructor-plus-`init()` path and
every sequence of steps (deliveries, suspended and resumed filter
evaluations, timer expiries, stop calls), the collected mapping never holds
a message whose chat id differs from the collector's target chat id; and a
message for another chat is ignored at the chat-id guard — the handler
returns with no state change and no signal, before the filter is ever
consulted (both for a synchronous invocation and for the pre-`await`
prefix). -/
theorem c4_chat_scope :
    (∀ (chatId : Nat) (o : COptions) (t0 : Nat) (steps : List (Nat × Label)),
      ∀ p ∈ (runSteps (initCollector chatId o t0) steps).1.collected.getD [],
        p.2.chatId = chatId) ∧
    (∀ (c : MessageCollector) (m : Message) (now : Nat),
      m.chatId ≠ c.cfg.chatId →
      c.deliver m now = (c, []) ∧ c.handleSuspend m = c) := by
  constructor
  · intro chatId o t0 steps p hp
    have hinv0 : chatInv (initCollector chatId o t0) := by
      constructor
      · intro q hq
        simp [initCollector, MessageCollector.init, newMessageCollector] at hq
      · intro m hm
        simp [initCollector, MessageCollector.init, newMessageCollector] at hm
    have hinv := runSteps_chatInv _ steps hinv0
    have h2 := hinv.1 p hp
    rw [runSteps_cfg] at h2
    simpa [initCollector, MessageCollector.init, newMessageCollector] using h2
  · intro c m now hch
    exact ⟨deliver_wrong_chat c m now hch, handleSuspend_wrong_chat c m hch⟩

/-- C4 witness: a run collecting one chat-1 message in a chat-1 collector
leaves only chat-1 entries, and a chat-2 message is a strict no-op. -/
theorem c4_witness :
    ((11, wMsg1) ∈
      (runSteps (initCollector 1 wOptsPlain 0) (deliveries [(0, wMsg1)])).1.collected.getD []
      ∧ (11, wMsg1).2.chatId = 1) ∧
    (wMsgX.chatId ≠ wLive.cfg.chatId ∧
      wLive.deliver wMsgX 3 = (wLive, []) ∧ wLive.handleSuspend wMsgX = wLive) := by
  refine ⟨⟨by decide, c4_chat_scope.1 1 wOptsPlain 0 (deliveries [(0, wMsg1)])
    (11, wMsg1) (by decide)⟩, by decide,
    c4_chat_scope.2 wLive wMsgX 3 (by decide)⟩

/-- C5: a candidate message (right chat) whose filter evaluation throws or
rejects produces exactly one `error` signal, is not added to the mapping,
and does not end the collector; with an always-throwing filter, any
delivery sequence leaves the collector state untouched (zero collected,
still alive) and yields exactly one `error` signal per chat-matching
candidate, in delivery order. -/
theorem c5_filter_error :
    (∀ (c : MessageCollector) (m : Message) (t : Nat),
      c.ended = false → c.listening = true → m.chatId = c.cfg.chatId →
      c.cfg.filter m = FilterOutcome.err →
      c.deliver m t = (c, [Event.error JsErr.filterError])) ∧
    (∀ (c : MessageCollector) (ms : List (Nat × Message)),
      (∀ m, c.cfg.filter m = FilterOutcome.err) →
      c.ended = false → c.listening = true →
      runSteps c (deliveries ms) =
        (c, (ms.filter (fun tm => tm.2.chatId == c.cfg.chatId)).map
              (fun _ => Event.error JsErr.filterError))) :=
  ⟨deliver_err, run_allerr⟩

/-- C5 witness: the always-throwing collector over the scenario deliveries
stays untouched and emits one `error` per chat-1 message. -/
theorem c5_witness :
    wErrC.deliver wMsg1 0 = (wErrC, [Event.error JsErr.filterError]) ∧
    runSteps wErrC (deliveries wScenMs) =
      (wErrC, [Event.error JsErr.filterError, Event.error JsErr.filterError,
               Event.error JsErr.filterError]) := by
  constructor
  · exact c5_filter_error.1 wErrC wMsg1 0 rfl rfl (by decide) rfl
  · have h := c5_filter_error.2 wErrC wScenMs (fun m => rfl) rfl rfl
    rw [h]
    rfl

/-- C6: `stop` is idempotent — on a collector whose `ended` flag is already
set, a further `stop(reason)` call (any reason) changes no state and emits
no second `end` signal, and the `array()` snapshot is the same before and
after the call. -/
theorem c6_stop_idempotent (c : MessageCollector) (r : String)
    (h : c.ended = true) :
    c.stop r = (c, []) ∧ (c.stop r).1.array = c.array := by
  refine ⟨stop_of_ended c r h, ?_⟩
  rw [stop_of_ended c r h]

/-- C6 witness: stopping the already-stopped fixture collector again is a
no-op with an unchanged `array()` snapshot. -/
theorem c6_witness :
    wEnded.ended = true ∧
    wEnded.stop "manual" = (wEnded, []) ∧
    (wEnded.stop "manual").1.array = wEnded.array := by
  refine ⟨by decide, ?_, ?_⟩
  · exact (c6_stop_idempotent wEnded "manual" (by decide)).1
  · exact (c6_stop_idempotent wEnded "manual" (by decide)).2

end MC

namespace MC

/-- C2: a constructed-and-initialized collector with `max = N` that receives
a delivery sequence containing at least N accepted messages (right chat,
passing filter) with pairwise-distinct ids — and in which no `time`/`idle`
timer fires, there being only message deliveries — ends with exactly N
entries in its collected mapping and emits `end` with reason `"limit"`
carrying that mapping. -/
theorem c2_limit (chatId : Nat) (o : COptions) (t0 N : Nat)
    (ms : List (Nat × Message))
    (hN : (initCollector chatId o t0).cfg.max = some N) (h0 : 0 < N)
    (hnd : ((matchingMsgs (initCollector chatId o t0) ms).map Message.id).Nodup)
    (hcount : N ≤ (matchingMsgs (initCollector chatId o t0) ms).length) :
    ∃ lf,
      (runSteps (initCollector chatId o t0) (deliveries ms)).1.collected = some lf ∧
      lf.length = N ∧
      (runSteps (initCollector chatId o t0) (deliveries ms)).1.ended = true ∧
      Event.ended (some lf) "limit" ∈
        (runSteps (initCollector chatId o t0) (deliveries ms)).2 :=
  limit_run N ms (initCollector chatId o t0) [] rfl rfl rfl hN
    (by simpa using h0) (by simpa using hnd) (by simpa using hcount)

/-- C2 witness: the spec scenario — `max = 2`, `time = 5000`, three chat-1
messages and one chat-2 message delivered synchronously.  Exactly the first
two chat-1 messages are collected, the trace is `collect, collect, end
"limit"` with the two-entry mapping, and the delivery of the third chat-1
message is a strict no-op because the collector has already ended before
its handler's filter evaluation is reached. -/
theorem c2_witness :
    (wScenC.cfg.max = some 2 ∧
      ((matchingMsgs wScenC wScenMs).map Message.id).Nodup ∧
      2 ≤ (matchingMsgs wScenC wScenMs).length ∧
      (∃ lf,
        (runSteps wScenC (deliveries wScenMs)).1.collected = some lf ∧
        lf.length = 2 ∧
        (runSteps wScenC (deliveries wScenMs)).1.ended = true ∧
        Event.ended (some lf) "limit" ∈ (runSteps wScenC (deliveries wScenMs)).2)) ∧
    (runSteps wScenC (deliveries wScenMs)).1.collected =
      some [(11, wMsg1), (12, wMsg2)] ∧
    (runSteps wScenC (deliveries wScenMs)).2 =
      [Event.collect wMsg1, Event.collect wMsg2,
       Event.ended (some [(11, wMsg1), (12, wMsg2)]) "limit"] ∧
    ((runSteps wScenC (deliveries [(0, wMsg1), (0, wMsg2)])).1.deliver wMsg3 0).2 = [] ∧
    ((runSteps wScenC (deliveries [(0, wMsg1), (0, wMsg2)])).1.deliver wMsg3 0).1.ended
      = true := by
  refine ⟨⟨by decide, by decide, by decide,
    c2_limit 1 wOptsMax2 0 2 wScenMs (by decide) (by decide) (by decide) (by decide)⟩,
    by decide, by decide, by decide, by decide⟩

/-- C3: through the public construction path `Chat.createMessageCollector`
(which never awaits the collector's `init()`), the collected mapping is
`null`; consequently every message that passes the chat-id check and the
filter makes `this.collected.set` throw a TypeError that the handler's
`catch` emits as an `error` signal instead of collecting; the mapping stays
`null` under every possible step forever; and every snapshot accessor
(`first`, `last`, `random`, `find`, `map`, `array`) throws when invoked. -/
theorem c3_null_collected :
    (∀ (chatId : Nat) (o : COptions) (t0 : Nat),
      (createMessageCollector chatId o t0).collected = none) ∧
    (∀ (c : MessageCollector) (m : Message) (t : Nat),
      c.ended = false → c.listening = true → m.chatId = c.cfg.chatId →
      c.cfg.filter m = FilterOutcome.pass → c.collected = none →
      c.deliver m t = (c, [Event.error JsErr.typeError])) ∧
    (∀ (c : MessageCollector) (steps : List (Nat × Label)),
      c.collected = none → (runSteps c steps).1.collected = none) ∧
    (∀ c : MessageCollector, c.collected = none →
      c.first = none ∧ c.last = none ∧ (∀ k, c.random k = none) ∧
      (∀ p, c.find p = none) ∧ (∀ f, c.mapMsgs f = none) ∧ c.array = none) := by
  refine ⟨fun chatId o t0 => rfl, deliver_null, runSteps_collected_none, ?_⟩
  intro c h
  refine ⟨?_, ?_, ?_, ?_, ?_, ?_⟩ <;>
    simp [MessageCollector.first, MessageCollector.last, MessageCollector.random,
      MessageCollector.find, MessageCollector.mapMsgs, MessageCollector.array, h]

/-- C3 witness: the chat-1 collector straight out of
`createMessageCollector` has a `null` mapping; a matching message produces
the TypeError `error` signal and no entry; after the whole scenario
delivery the mapping is still `null`; and every accessor throws. -/
theorem c3_witness :
    (createMessageCollector 1 wOptsPlain 0).collected = none ∧
    (createMessageCollector 1 wOptsPlain 0).deliver wMsg1 0 =
      (createMessageCollector 1 wOptsPlain 0, [Event.error JsErr.typeError]) ∧
    (runSteps (createMessageCollector 1 wOptsPlain 0) (deliveries wScenMs)).1.collected
      = none ∧
    ((createMessageCollector 1 wOptsPlain 0).first = none ∧
     (createMessageCollector 1 wOptsPlain 0).last = none ∧
     (createMessageCollector 1 wOptsPlain 0).random 0 = none ∧
     (createMessageCollector 1 wOptsPlain 0).find (fun _ => true) = none ∧
     (createMessageCollector 1 wOptsPlain 0).mapMsgs (fun m => m.id) = none ∧
     (createMessageCollector 1 wOptsPlain 0).array = none) := by
  have h1 := c3_null_collected.1 1 wOptsPlain 0
  have h2 := c3_null_collected.2.1 (createMessageCollector 1 wOptsPlain 0) wMsg1 0
    rfl rfl (by decide) rfl h1
  have h3 := c3_null_collected.2.2.1 (createMessageCollector 1 wOptsPlain 0)
    (deliveries wScenMs) h1
  have h4 := c3_null_collected.2.2.2 (createMessageCollector 1 wOptsPlain 0) h1
  exact ⟨h1, h2, h3, h4.1, h4.2.1, h4.2.2.1 0, h4.2.2.2.1 (fun _ => true),
    h4.2.2.2.2.1 (fun m => m.id), h4.2.2.2.2.2⟩

end MC

namespace MC

/-- A live collector with an armed `time` deadline `d`, fed only deliveries
it does not accept and then the timer expiry at `tf ≥ d`: it ends with its
mapping unchanged and `end` reason `"time"` in the trace. -/
theorem run_time_expire (c : MessageCollector) (ms : List (Nat × Message))
    (tf d : Nat) (he : c.ended = false) (hd : c.timeDeadline = some d)
    (htf : d ≤ tf) (hnm : ∀ tm ∈ ms, matchesB c tm.2 = false) :
    (runSteps c (deliveries ms ++ [(tf, Label.fireTimeL)])).1.ended = true ∧
    (runSteps c (deliveries ms ++ [(tf, Label.fireTimeL)])).1.collected = c.collected ∧
    Event.ended c.collected "time" ∈
      (runSteps c (deliveries ms ++ [(tf, Label.fireTimeL)])).2 := by
  have hsplit := runSteps_append c (deliveries ms) [(tf, Label.fireTimeL)]
  have hstate := runSteps_nomatch_state c ms hnm
  have hfire := fireTime_expire c tf d hd htf he
  rw [hsplit, hstate]
  have hsingle : runSteps c [(tf, Label.fireTimeL)] =
      ((c.fireTime tf).1, (c.fireTime tf).2 ++ []) := rfl
  rw [hsingle, hfire]
  refine ⟨rfl, rfl, ?_⟩
  apply List.mem_append_right
  simp

/-- C7: construction with a `time = T` option arms a one-shot timer due
exactly `T` milliseconds after construction whose expiry calls
`stop('time')`; the timer cannot fire earlier; and a collector (construction
followed by `init()`) that accepts no delivered message ends, once that
timer fires at any `tf ≥ t0 + T`, with reason `"time"` and an empty
collected mapping. -/
theorem c7_time_bound (chatId : Nat) (o : COptions) (t0 T : Nat)
    (ms : List (Nat × Message)) (tf : Nat)
    (hT : jsOrNone o.time = some T)
    (hnm : ∀ tm ∈ ms, matchesB (initCollector chatId o t0) tm.2 = false)
    (htf : t0 + T ≤ tf) :
    (initCollector chatId o t0).timeDeadline = some (t0 + T) ∧
    (∀ t2, t2 < t0 + T →
      (initCollector chatId o t0).fireTime t2 = (initCollector chatId o t0, [])) ∧
    (runSteps (initCollector chatId o t0)
      (deliveries ms ++ [(tf, Label.fireTimeL)])).1.ended = true ∧
    (runSteps (initCollector chatId o t0)
      (deliveries ms ++ [(tf, Label.fireTimeL)])).1.collected = some [] ∧
    Event.ended (some []) "time" ∈
      (runSteps (initCollector chatId o t0)
        (deliveries ms ++ [(tf, Label.fireTimeL)])).2 := by
  have hd : (initCollector chatId o t0).timeDeadline = some (t0 + T) := by
    simp [initCollector, MessageCollector.init, newMessageCollector, hT]
  have hrun := run_time_expire (initCollector chatId o t0) ms tf (t0 + T)
    rfl hd htf hnm
  exact ⟨hd, fun t2 h2 => fireTime_early _ t2 (t0 + T) hd h2,
    hrun.1, hrun.2.1, hrun.2.2⟩

/-- C7 witness: a `time = 5000` collector constructed at 0, given one
wrong-chat delivery, whose timer fires at 6000: it ends with reason
`"time"` and zero collected messages, and the timer cannot fire at 4999. -/
theorem c7_witness :
    (initCollector 1 wOptsTime 0).timeDeadline = some 5000 ∧
    (initCollector 1 wOptsTime 0).fireTime 4999 = (initCollector 1 wOptsTime 0, []) ∧
    (runSteps (initCollector 1 wOptsTime 0)
      (deliveries [(1, wMsgX)] ++ [(6000, Label.fireTimeL)])).1.ended = true ∧
    (runSteps (initCollector 1 wOptsTime 0)
      (deliveries [(1, wMsgX)] ++ [(6000, Label.fireTimeL)])).1.collected = some [] ∧
    Event.ended (some []) "time" ∈
      (runSteps (initCollector 1 wOptsTime 0)
        (deliveries [(1, wMsgX)] ++ [(6000, Label.fireTimeL)])).2 := by
  have h := c7_time_bound 1 wOptsTime 0 5000 [(1, wMsgX)] 6000 (by decide)
    (by decide) (by decide)
  exact ⟨h.1, h.2.1 4999 (by decide), h.2.2.1, h.2.2.2.1, h.2.2.2.2⟩

/-- C8: with `idle = I`, the idle timer is armed at construction (due
`t0 + I`); a successful collect that does not reach the `max` bound
cancels-and-re-arms it to fire `I` after the collect; a delivery the
collector does not accept (rejected, throwing, or other-chat) leaves the
idle deadline untouched; the timer cannot fire before its deadline; and
when it fires at or after the deadline the collector ends with reason
`"idle"`. -/
theorem c8_idle_bound :
    (∀ (chatId : Nat) (o : COptions) (t0 I : Nat),
      jsOrNone o.idle = some I →
      (initCollector chatId o t0).idleDeadline = some (t0 + I)) ∧
    (∀ (c : MessageCollector) (m : Message) (t : Nat)
        (l : List (Nat × Message)) (I : Nat),
      c.ended = false → c.listening = true → m.chatId = c.cfg.chatId →
      c.cfg.filter m = FilterOutcome.pass → c.collected = some l →
      m.id ∉ l.map Prod.fst →
      (∀ N, c.cfg.max = some N → l.length + 1 < N) →
      c.cfg.idle = some I →
      (c.deliver m t).1.idleDeadline = some (t + I) ∧
        Event.collect m ∈ (c.deliver m t).2) ∧
    (∀ (c : MessageCollector) (m : Message) (t : Nat),
      matchesB c m = false →
      (c.deliver m t).1.idleDeadline = c.idleDeadline) ∧
    (∀ (c : MessageCollector) (now d : Nat),
      c.idleDeadline = some d → d ≤ now → c.ended = false →
      (c.fireIdle now).1.ended = true ∧
        (c.fireIdle now).2 = [Event.ended c.collected "idle"]) ∧
    (∀ (c : MessageCollector) (now d : Nat),
      c.idleDeadline = some d → now < d → c.fireIdle now = (c, [])) := by
  refine ⟨?_, ?_, deliver_nomatch_idle, ?_, fireIdle_early⟩
  · intro chatId o t0 I hI
    simp [initCollector, MessageCollector.init, newMessageCollector, hI]
  · intro c m t l I he hl hch hf hc hfresh hmax hI
    rw [deliver_match_nohit c m t l he hl hch hf hc hfresh hmax]
    constructor
    · simp [idleAfter, hI]
    · simp
  · intro c now d hd hle he
    rw [fireIdle_expire c now d hd hle he]
    exact ⟨rfl, rfl⟩

/-- C8 witness: the `idle = 100` collector is armed for 100 at
construction; collecting a message at time 7 re-arms it for 107; a
wrong-chat delivery leaves it untouched; it cannot fire at 99; firing at
100 ends the collector with reason `"idle"`. -/
theorem c8_witness :
    (initCollector 1 wOptsIdle 0).idleDeadline = some 100 ∧
    ((wIdleC.deliver wMsg5 7).1.idleDeadline = some 107 ∧
      Event.collect wMsg5 ∈ (wIdleC.deliver wMsg5 7).2) ∧
    (wIdleC.deliver wMsgX 8).1.idleDeadline = wIdleC.idleDeadline ∧
    ((wIdleC.fireIdle 100).1.ended = true ∧
      (wIdleC.fireIdle 100).2 = [Event.ended wIdleC.collected "idle"]) ∧
    wIdleC.fireIdle 99 = (wIdleC, []) := by
  refine ⟨c8_idle_bound.1 1 wOptsIdle 0 100 (by decide),
    c8_idle_bound.2.1 wIdleC wMsg5 7 [] 100 rfl rfl (by decide) rfl rfl
      (by decide) (fun N hN => by cases hN) rfl,
    c8_idle_bound.2.2.1 wIdleC wMsgX 8 (by decide),
    c8_idle_bound.2.2.2.1 wIdleC 100 100 rfl (by decide) rfl,
    c8_idle_bound.2.2.2.2 wIdleC 99 100 rfl (by decide)⟩

end MC

namespace MC

/-- C1 counterexample: the claim asserts that `ended` is re-checked when an
asynchronous filter evaluation resolves, so that nothing mutates after
`stop`.  The code has no such re-check: with the `idle = 100` accept-all
collector, a handler that suspends at its filter `await` at time 0,
followed by `stop('manual')` at time 3, followed by the filter resolving
true at time 10, yields — on the already-ended collector — a new collected
entry, an emitted `collect` signal, and a re-armed idle timer (deadline
110). -/
theorem c1_counterexample :
    (runSteps wIdleC [(0, Label.suspendAt wMsg5), (3, Label.stopL "manual")]).1.ended
      = true ∧
    (runSteps wIdleC [(0, Label.suspendAt wMsg5), (3, Label.stopL "manual")]).1.collected
      = some [] ∧
    (runSteps wIdleC [(0, Label.suspendAt wMsg5), (3, Label.stopL "manual"),
        (10, Label.resumeAt wMsg5)]).1.collected = some [(5, wMsg5)] ∧
    Event.collect wMsg5 ∈
      (runSteps wIdleC [(0, Label.suspendAt wMsg5), (3, Label.stopL "manual"),
        (10, Label.resumeAt wMsg5)]).2 ∧
    (runSteps wIdleC [(0, Label.suspendAt wMsg5), (3, Label.stopL "manual"),
        (10, Label.resumeAt wMsg5)]).1.idleDeadline = some 110 := by
  refine ⟨by decide, by decide, by decide, by decide, by decide⟩

/-- C1 (amended): once `ended` is true, every step other than the
resumption of a filter evaluation already in flight is a strict no-op — no
new entry, no signal, no timer change; in particular a newly delivered
message is discarded by the `ended` check at the top of the handler, both
in a synchronous invocation and in the pre-`await` prefix.  (The claim's
further assertion — that `ended` is re-checked when an in-flight
asynchronous filter resolves — is false; see the counterexample: such a
resumption still inserts its entry, emits `collect`, and re-arms the idle
timer, its nested `stop('limit')` being the only part silenced.) -/
theorem c1_ended_frozen :
    (∀ (c : MessageCollector) (l : Label) (t : Nat),
      c.ended = true → c.pending = [] → step c l t = (c, [])) ∧
    (∀ (c : MessageCollector) (m : Message) (t : Nat),
      c.ended = true →
      c.deliver m t = (c, []) ∧ c.handleSuspend m = c) :=
  ⟨step_noop_of_ended,
   fun c m t h => ⟨deliver_ended_noop c m t h, handleSuspend_ended c m h⟩⟩

/-- C1 witness: on the stopped fixture collector (no evaluation in flight),
a delivery, a timer expiry and a second stop are all strict no-ops. -/
theorem c1_witness :
    wEnded.ended = true ∧ wEnded.pending = [] ∧
    step wEnded (Label.deliverMsg wMsg1) 7 = (wEnded, []) ∧
    step wEnded Label.fireIdleL 8 = (wEnded, []) ∧
    step wEnded (Label.stopL "again") 9 = (wEnded, []) ∧
    wEnded.deliver wMsg1 7 = (wEnded, []) ∧ wEnded.handleSuspend wMsg1 = wEnded := by
  refine ⟨by decide, by decide,
    c1_ended_frozen.1 wEnded (Label.deliverMsg wMsg1) 7 (by decide) (by decide),
    c1_ended_frozen.1 wEnded Label.fireIdleL 8 (by decide) (by decide),
    c1_ended_frozen.1 wEnded (Label.stopL "again") 9 (by decide) (by decide),
    c1_ended_frozen.2 wEnded wMsg1 7 (by decide)⟩

/-- C9 counterexample: the claim asserts that `awaitMessage` on a collector
that has already ended at call time rejects with the collector-ended
error.  In the code the rejection is wired to a future `end` signal, and an
already-ended collector (here the stopped fixture, with nothing in flight)
never emits again — the run below produces no signals — so with no own
timeout the promise never settles at all: the outcome is `pending`, not
`rejectedEnded`. -/
theorem c9_counterexample :
    wEnded.ended = true ∧
    runSteps wEnded [(1, Label.deliverMsg wMsg1), (2, Label.fireIdleL),
      (3, Label.stopL "x")] = (wEnded, []) ∧
    awaitOutcome (fun _ => true) false
      (toCEvs (runSteps wEnded [(1, Label.deliverMsg wMsg1), (2, Label.fireIdleL),
        (3, Label.stopL "x")]).2) = AwaitResult.pending ∧
    AwaitResult.pending ≠ AwaitResult.rejectedEnded := by
  refine ⟨by decide, runSteps_noop_of_ended wEnded _ (by decide) (by decide), ?_, by decide⟩
  rw [runSteps_noop_of_ended wEnded _ (by decide) (by decide)]
  rfl

/-- C9 (amended): the `awaitMessage` promise observes only the signals the
backing collector emits after the call.  It resolves with the first
subsequently collected message that also passes the one-off filter; it
rejects with `Error('Collector ended')` when the collector emits an `end`
signal before any such match; over a signal-free remainder it rejects with
`Error('Time limit exceeded')` when its own timeout was set and otherwise
never settles — in particular, a collector that has already ended at call
time (with no evaluation in flight) emits no further signals, so the
promise never settles unless its own timeout was set. -/
theorem c9_await :
    (∀ (flt : Message → Bool) (ht : Bool) (pre : List CEv) (m : Message)
        (rest : List CEv),
      (∀ m2, CEv.collect m2 ∈ pre → flt m2 = false) →
      CEv.endSig ∉ pre → flt m = true →
      awaitOutcome flt ht (pre ++ CEv.collect m :: rest) = AwaitResult.resolved m) ∧
    (∀ (flt : Message → Bool) (ht : Bool) (pre rest : List CEv),
      (∀ m2, CEv.collect m2 ∈ pre → flt m2 = false) →
      CEv.endSig ∉ pre →
      awaitOutcome flt ht (pre ++ CEv.endSig :: rest) = AwaitResult.rejectedEnded) ∧
    (∀ (flt : Message → Bool) (evs : List CEv),
      (∀ m2, CEv.collect m2 ∈ evs → flt m2 = false) →
      CEv.endSig ∉ evs →
      awaitOutcome flt true evs = AwaitResult.rejectedTimeout) ∧
    (∀ (flt : Message → Bool) (c : MessageCollector) (steps : List (Nat × Label)),
      c.ended = true → c.pending = [] →
      awaitOutcome flt false (toCEvs (runSteps c steps).2) = AwaitResult.pending) := by
  refine ⟨awaitOutcome_resolves, awaitOutcome_rejectsEnd, ?_, ?_⟩
  · intro flt evs h1 h2
    simpa using awaitOutcome_noSignal flt true evs h1 h2
  · intro flt c steps h hp
    rw [runSteps_noop_of_ended c steps h hp]
    rfl

/-- C9 witness: a one-off filter accepting only message id 12 skips the
collect of `wMsg1`, resolves at the collect of `wMsg2`, rejects with the
ended error when `end` comes first, rejects with the timeout error over a
non-matching remainder, and stays pending forever on the stopped fixture
collector. -/
theorem c9_witness :
    awaitOutcome (fun m => m.id == 12) true
      [CEv.collect wMsg1, CEv.collect wMsg2, CEv.endSig] =
      AwaitResult.resolved wMsg2 ∧
    awaitOutcome (fun m => m.id == 12) false
      [CEv.collect wMsg1, CEv.endSig, CEv.collect wMsg2] =
      AwaitResult.rejectedEnded ∧
    awaitOutcome (fun m => m.id == 12) true [CEv.collect wMsg1] =
      AwaitResult.rejectedTimeout ∧
    awaitOutcome (fun m => m.id == 12) false
      (toCEvs (runSteps wEnded [(4, Label.deliverMsg wMsg2)]).2) =
      AwaitResult.pending := by
  refine ⟨?_, ?_, ?_, ?_⟩
  · exact c9_await.1 (fun m => m.id == 12) true [CEv.collect wMsg1] wMsg2 [CEv.endSig]
      (by intro m2 hm2; simp at hm2; subst hm2; decide) (by decide) (by decide)
  · exact c9_await.2.1 (fun m => m.id == 12) false [CEv.collect wMsg1]
      [CEv.collect wMsg2] (by intro m2 hm2; simp at hm2; subst hm2; decide)
      (by decide)
  · exact c9_await.2.2.1 (fun m => m.id == 12) [CEv.collect wMsg1]
      (by intro m2 hm2; simp at hm2; subst hm2; decide) (by decide)
  · exact c9_await.2.2.2 (fun m => m.id == 12) wEnded [(4, Label.deliverMsg wMsg2)]
      (by decide) (by decide)

/-- C10: the `MessageCollector` class body declares a prototype method
`filter(fn)` returning `this.collected.filter(fn)`, but the constructor
assigns the own instance property `this.filter = options.filter || (() =>
true)`; JavaScript member lookup lets the own property shadow the prototype
method, so `collector.filter(fn)` reaches the caller-supplied filter
predicate, never the accessor — while `first`, `last`, `random`, `find`,
`map` and `array` do reach their prototype methods, which are pure reads of
the current collected snapshot (they depend on nothing but `collected` and
return no state). -/
theorem c10_filter_shadowed :
    resolvesToProto "filter" = false ∧
    ownInstanceProps.contains "filter" = true ∧
    protoMethods.contains "filter" = true ∧
    (resolvesToProto "first" = true ∧ resolvesToProto "last" = true ∧
     resolvesToProto "random" = true ∧ resolvesToProto "find" = true ∧
     resolvesToProto "map" = true ∧ resolvesToProto "array" = true) ∧
    (∀ (c c2 : MessageCollector), c.collected = c2.collected →
      c.first = c2.first ∧ c.last = c2.last ∧
      (∀ k, c.random k = c2.random k) ∧
      (∀ p, c.find p = c2.find p) ∧
      (∀ f, c.mapMsgs f = c2.mapMsgs f) ∧
      c.array = c2.array ∧
      (∀ p, c.filterProto p = c2.filterProto p)) := by
  refine ⟨by decide, by decide, by decide,
    ⟨by decide, by decide, by decide, by decide, by decide, by decide⟩, ?_⟩
  intro c c2 h
  refine ⟨?_, ?_, ?_, ?_, ?_, ?_, ?_⟩ <;>
    simp [MessageCollector.first, MessageCollector.last, MessageCollector.random,
      MessageCollector.find, MessageCollector.mapMsgs, MessageCollector.array,
      MessageCollector.filterProto, h]

/-- C10 witness: the snapshot accessors agree between the live fixture
collector and the same collector stopped (same `collected`, different
`ended`/timer state). -/
theorem c10_witness :
    wLive.collected = wEnded.collected ∧
    wLive.first = wEnded.first ∧ wLive.array = wEnded.array ∧
    wLive.random 3 = wEnded.random 3 ∧
    wLive.filterProto (fun _ => true) = wEnded.filterProto (fun _ => true) := by
  have h := c10_filter_shadowed.2.2.2.2 wLive wEnded (by decide)
  exact ⟨by decide, h.1, h.2.2.2.2.2.1, h.2.2.1 3, h.2.2.2.2.2.2 (fun _ => true)⟩

end MC
